import Mathlib

/-!
Verification of the batch audio-transcription pipeline (src/audio2txt.py) and the
text-summarization pipeline (src/summary.py) of sssxyd/py-audio2txt against its
natural-language specification.

Shallow embedding conventions:
* the external ModelScope capabilities (audio decode, noise suppression, ASR,
  LLM generation, tokenizer) are opaque collaborators; they enter as explicit
  oracle parameters (a `Bool` success flag, a per-file result list, a content
  function) exactly where the Python code calls them;
* the filesystem is an association list `path ↦ content`; `os.remove`,
  `os.path.exists` and `open(...,'w')` become `fsRemove`, `fsExists`, `fsWrite`;
* Python exceptions that the repository itself raises or catches are modelled
  with `Except` / explicit control flow, mirroring each try/except/finally.
-/

/-- One raw sentence fragment as delivered by the ASR capability inside
`item['sentence_info']` (audio2txt.py:110-115): a possibly missing speaker id
`spk` and a possibly missing text `text`. -/
structure RawFrag where
  spk : Option Nat
  text : Option String
deriving DecidableEq

/-- A fragment that survived the drop filter: speaker present, text present and
non-empty (the dict `{'spk': spk, 'text': txt}` built at audio2txt.py:118). -/
structure Line where
  spk : Nat
  text : String
deriving DecidableEq

/-- The drop filter of `transcript_wavs` (audio2txt.py:113-119): skip a fragment
when `spk is None or txt is None or len(txt) == 0`, keep the rest in order. -/
def filterLines : List RawFrag → List Line
  | [] => []
  | f :: rest =>
    match f.spk, f.text with
    | some s, some t => if t.length = 0 then filterLines rest else ⟨s, t⟩ :: filterLines rest
    | _, _ => filterLines rest

/-- `len(speakers)` at audio2txt.py:121 where `speakers` is the set of `spk`
values added for every surviving line (audio2txt.py:119). -/
def distinctSpeakers (lines : List Line) : Nat :=
  ((lines.map Line.spk).dedup).length

/-- The closed-turn string `f"Speaker_{pre_speaker}: {pre_line}"`
(audio2txt.py:136 and 142). -/
def speakerLabel (s : Nat) (buf : String) : String :=
  "Speaker_" ++ toString s ++ ": " ++ buf

/-- The turn-merge loop of `transcript_wavs` (audio2txt.py:126-142).  State
`st = (pre_speaker, pre_line)` is `none` before the first fragment; `contents`
is the list of already emitted turns.  For each line: first fragment opens a
turn; a different speaker emits the closed turn and opens a new one; the same
speaker appends the text directly (no separator).  After the loop the final
open turn, if any, is emitted. -/
def mergeGo (st : Option (Nat × String)) (contents : List String) : List Line → List String
  | [] =>
    match st with
    | none => contents
    | some (ps, pl) => contents ++ [speakerLabel ps pl]
  | line :: rest =>
    match st with
    | none => mergeGo (some (line.spk, line.text)) contents rest
    | some (ps, pl) =>
      if ps ≠ line.spk then
        mergeGo (some (line.spk, line.text)) (contents ++ [speakerLabel ps pl]) rest
      else
        mergeGo (some (ps, pl ++ line.text)) contents rest

/-- The list `contents` of emitted turns after the whole merge loop ran. -/
def mergeFragments (lines : List Line) : List String :=
  mergeGo none [] lines

/-- Per-item content computation of `transcript_wavs` (audio2txt.py:110-143):
drop non-contributing fragments; fewer than 2 distinct speakers gives the plain
newline-join of the surviving texts (audio2txt.py:121-122), otherwise the
newline-join of the merged turns (audio2txt.py:143). -/
def mergeContent (frags : List RawFrag) : String :=
  if distinctSpeakers (filterLines frags) < 2 then
    String.intercalate "\n" ((filterLines frags).map Line.text)
  else
    String.intercalate "\n" (mergeFragments (filterLines frags))

/-- Specification-side definition: the maximal runs of consecutive same-speaker
lines, as a list of non-empty chunks in original order.  A line joins the
following chunk exactly when it has the same speaker as that chunk's head. -/
def runs : List Line → List (List Line)
  | [] => []
  | a :: rest =>
    match runs rest with
    | (b :: r) :: rs =>
      if a.spk = b.spk then (a :: b :: r) :: rs else [a] :: (b :: r) :: rs
    | _ => [[a]]

/-- Number of adjacent speaker changes in a list of lines, seeded with the
speaker `s` of the previous line. -/
def countChanges (s : Nat) : List Line → Nat
  | [] => 0
  | b :: rest => (if b.spk = s then 0 else 1) + countChanges b.spk rest

/-- Number of maximal same-speaker runs, counted as 1 + adjacent changes. -/
def runsCount : List Line → Nat
  | [] => 0
  | a :: rest => 1 + countChanges a.spk rest

/-- The result-assembly loop of `transcript_wavs` (audio2txt.py:101-147).  The
external ASR batch call is the opaque collaborator; its per-file results enter
as the explicit list `rec_result` (one `Option (List RawFrag)` per file,
`none` modelling `item['sentence_info'] is None`, which yields content `""` at
audio2txt.py:106-109).  The `for i, item in enumerate(rec_result)` loop pairs
result `i` with `wav_files[i]`; if `rec_result` is longer than `wav_files` the
`wav_files[i]` lookup raises IndexError and the surrounding `except` returns
the entries accumulated so far (audio2txt.py:145-147), hence the truncation. -/
def transcript_wavs : List String → List (Option (List RawFrag)) → List (String × String)
  | _, [] => []
  | [], _ :: _ => []
  | w :: ws, r :: rs =>
    (w, match r with | none => "" | some info => mergeContent info) :: transcript_wavs ws rs

theorem mergeGo_some_length (l : List Line) : ∀ (s : Nat) (b : String) (acc : List String),
    (mergeGo (some (s, b)) acc l).length = acc.length + 1 + countChanges s l := by
  induction l with
  | nil => intro s b acc; simp [mergeGo, countChanges]
  | cons a l ih =>
    intro s b acc
    by_cases h : s = a.spk
    · subst h
      simp [mergeGo, countChanges, ih]
    · have h2 : ¬ a.spk = s := fun hh => h hh.symm
      simp only [mergeGo, countChanges, if_pos h, if_neg h2, ih, List.length_append,
        List.length_singleton]
      omega

theorem runs_cons (b : Line) (m : List Line) : ∃ r rs, runs (b :: m) = (b :: r) :: rs := by
  rcases h : runs m with _ | ⟨_ | ⟨c, r⟩, rs⟩
  · exact ⟨[], [], by simp [runs, h]⟩
  · exact ⟨[], [], by simp [runs, h]⟩
  · by_cases hs : b.spk = c.spk
    · exact ⟨c :: r, rs, by simp [runs, h, hs]⟩
    · exact ⟨[], (c :: r) :: rs, by simp [runs, h, hs]⟩

theorem runs_length (l : List Line) : (runs l).length = runsCount l := by
  induction l with
  | nil => rfl
  | cons a rest ih =>
    cases rest with
    | nil => simp [runs, runsCount, countChanges]
    | cons b m =>
      obtain ⟨r, rs, hr⟩ := runs_cons b m
      have hlen : rs.length + 1 = 1 + countChanges b.spk m := by
        have h2 := ih
        rw [hr] at h2
        simpa [runsCount] using h2
      have hstep : runs (a :: b :: m) =
          if a.spk = b.spk then (a :: b :: r) :: rs else [a] :: (b :: r) :: rs := by
        rw [runs, hr]
      by_cases hs : a.spk = b.spk
      · have hs2 : b.spk = a.spk := hs.symm
        rw [hstep, if_pos hs]
        simp only [runsCount, countChanges, List.length_cons, if_pos hs2]
        omega
      · have hs2 : ¬ b.spk = a.spk := fun hh => hs hh.symm
        rw [hstep, if_neg hs]
        simp [runsCount, countChanges, hs2]
        omega

theorem mergeFragments_length (lines : List Line) :
    (mergeFragments lines).length = (runs lines).length := by
  rw [runs_length]
  cases lines with
  | nil => rfl
  | cons a rest =>
    show (mergeGo none [] (a :: rest)).length = runsCount (a :: rest)
    simp [mergeGo, runsCount, mergeGo_some_length]

/-- Example fragment sequence of the specification scenario:
`[{1,"Hello "},{1,"there."},{2,"Hi!"}]`. -/
def exFrags : List RawFrag :=
  [⟨some 1, some "Hello "⟩, ⟨some 1, some "there."⟩, ⟨some 2, some "Hi!"⟩]

/-- Example single-speaker fragment sequence `[{1,"A"},{1,"B"}]`. -/
def exFragsSingle : List RawFrag := [⟨some 1, some "A"⟩, ⟨some 1, some "B"⟩]

/-- C1: when the fragments surviving the drop filter have at least 2 distinct
speakers, the merge output is the newline-join of the turns emitted by the
single linear pass `mergeGo` (same-speaker texts concatenated with no
separator, a speaker change emitting `Speaker_{id}: {buffer}`, the final open
turn emitted after the loop), and the number of emitted turns equals the number
of maximal runs of consecutive same-speaker fragments. -/
theorem transcript_merge_turns_count (frags : List RawFrag)
    (h : 2 ≤ distinctSpeakers (filterLines frags)) :
    mergeContent frags = String.intercalate "\n" (mergeFragments (filterLines frags)) ∧
    (mergeFragments (filterLines frags)).length = (runs (filterLines frags)).length := by
  constructor
  · rw [mergeContent, if_neg (Nat.not_lt.mpr h)]
  · exact mergeFragments_length _

/-- Witness for C1 on the specification's concrete scenario: the fragments
`[{1,"Hello "},{1,"there."},{2,"Hi!"}]` have 2 distinct speakers, merge to
`"Speaker_1: Hello there.\nSpeaker_2: Hi!"`, and produce one turn per maximal
same-speaker run (2 runs). -/
theorem transcript_merge_turns_count_witness :
    2 ≤ distinctSpeakers (filterLines exFrags) ∧
    mergeContent exFrags = "Speaker_1: Hello there.\nSpeaker_2: Hi!" ∧
    (mergeFragments (filterLines exFrags)).length = (runs (filterLines exFrags)).length ∧
    (runs (filterLines exFrags)).length = 2 :=
  ⟨by decide, by decide,
    (transcript_merge_turns_count exFrags (by decide)).2, by decide⟩

/-- C2: when the fragments surviving the drop filter have fewer than 2 distinct
speakers, the merge output is the plain newline-joined concatenation of the
surviving texts in original order with no speaker label; zero surviving
fragments yield empty content. -/
theorem transcript_merge_single_speaker (frags : List RawFrag)
    (h : distinctSpeakers (filterLines frags) < 2) :
    mergeContent frags = String.intercalate "\n" ((filterLines frags).map Line.text) ∧
    (filterLines frags = [] → mergeContent frags = "") := by
  refine ⟨by rw [mergeContent, if_pos h], fun he => ?_⟩
  rw [mergeContent, if_pos h, he]
  rfl

/-- Witness for C2 on the specification's single-speaker scenario
`[{1,"A"},{1,"B"}]` (output `"A\nB"`, no label) and on the empty sequence
(empty content). -/
theorem transcript_merge_single_speaker_witness :
    (distinctSpeakers (filterLines exFragsSingle) < 2 ∧
      mergeContent exFragsSingle =
        String.intercalate "\n" ((filterLines exFragsSingle).map Line.text) ∧
      mergeContent exFragsSingle = "A\nB") ∧
    (distinctSpeakers (filterLines []) < 2 ∧ mergeContent [] = "") :=
  ⟨⟨by decide, (transcript_merge_single_speaker exFragsSingle (by decide)).1, by decide⟩,
    ⟨by decide, (transcript_merge_single_speaker [] (by decide)).2 rfl⟩⟩

/-- Index of the last occurrence of `c` in the remaining characters, counting
from offset `i`, with `best` the best index found so far (helper for the
`rfind` calls inside `os.path.splitext` / `os.path.basename`). -/
def lastIdxGo (c : Char) (i : Nat) (best : Option Nat) : List Char → Option Nat
  | [] => best
  | x :: xs => lastIdxGo c (i + 1) (if x = c then some i else best) xs

/-- POSIX `os.path.splitext`: split off the extension at the last dot that
comes after the last path separator, provided at least one non-dot character
stands between the separator and that dot (leading dots of the basename never
start an extension, per CPython `genericpath._splitext`). -/
def splitext (p : String) : String × String :=
  let cs := p.data
  match lastIdxGo '.' 0 none cs with
  | none => (p, "")
  | some d =>
    let s : Nat :=
      match lastIdxGo '/' 0 none cs with
      | none => 0
      | some k => k + 1
    if s ≤ d ∧ ((cs.drop s).take (d - s)).any (fun x => x ≠ '.') then
      (⟨cs.take d⟩, ⟨cs.drop d⟩)
    else (p, "")

/-- POSIX `os.path.basename`: everything after the last path separator. -/
def basename (p : String) : String :=
  match lastIdxGo '/' 0 none p.data with
  | none => p
  | some k => ⟨p.data.drop (k + 1)⟩

/-- Filesystem model: an association list `path ↦ content`; a path exists when
a binding for it is present. -/
abbrev FS := List (String × String)

/-- `os.path.exists`. -/
def fsExists (fs : FS) (p : String) : Bool := fs.any (fun e => e.1 == p)

/-- `os.remove` (removing every binding of `p`; a no-op when absent). -/
def fsRemove (fs : FS) (p : String) : FS := fs.filter (fun e => !(e.1 == p))

/-- `open(p, 'w').write(c)`: `p` now exists with content exactly `c`. -/
def fsWrite (fs : FS) (p c : String) : FS := (p, c) :: fsRemove fs p

/-- Read the content of `p`, when it exists. -/
def fsRead (fs : FS) (p : String) : Option String :=
  (fs.find? (fun e => e.1 == p)).map Prod.snd

/-- Python-level errors raised by code under src/. -/
inductive PyErr
  | typeError
deriving DecidableEq

/-- The call `os.copy_file_range(input_path, enhanced_path)` at
audio2txt.py:96.  CPython's `os.copy_file_range(src, dst, count, ...)` takes
two integer file descriptors and a *required* byte `count`; the source passes
two `str` paths and no count, so the call raises `TypeError` before copying
anything. -/
def os_copy_file_range_call (_input_path _enhanced_path : String) : Except PyErr Unit :=
  Except.error PyErr.typeError

/-- `tempfile.gettempdir()` (audio2txt.py:88). -/
def tmpdir : String := "/tmp"

/-- The enhanced-output path built at audio2txt.py:87-89:
`os.path.join(tempdir, f"enhanced_{stem-of-basename}.wav")`. -/
def enhancedPathFor (input_path : String) : String :=
  tmpdir ++ "/enhanced_" ++ (splitext (basename input_path)).1 ++ ".wav"

/-- `enhance_wav` (audio2txt.py:81-98).  `enhancerOk` tells whether the
external noise-suppression pipe call succeeds; on failure the except block
first runs the (mis-typed) `os.copy_file_range` call, whose `TypeError`
propagates out of `enhance_wav`, so the `return input_path` fallback on line 98
is unreachable. -/
def enhance_wav (enhancerOk : Bool) (input_path : String) : Except PyErr String :=
  let enhanced_path := enhancedPathFor input_path
  if enhancerOk then Except.ok enhanced_path
  else
    match os_copy_file_range_call input_path enhanced_path with
    | Except.ok _ => Except.ok input_path
    | Except.error e => Except.error e

/-- Oracles for one `process_batch` run: the per-file outcomes of the three
external capabilities it consults. -/
structure BatchEnv where
  /-- `preprocess_audio` (audio2txt.py:41-59): `some wavPath` when pydub decode
  and export succeed (the temp wav is then created on disk), `none` on failure. -/
  preprocess : String → Option String
  /-- whether the external noise-suppression pipe call inside `enhance_wav`
  succeeds for a given preprocessed wav (writing the enhanced file). -/
  enhancerOk : String → Bool
  /-- `item['sentence_info']` returned by the ASR batch call for a given
  enhanced wav (`none` = no structured sentence data). -/
  asr : String → Option (List RawFrag)

/-- One iteration of the preprocessing loop of `process_batch`
(audio2txt.py:180-196), including its try/except/finally.  On preprocess
success the temp wav is created; then `enhance_wav` either succeeds (the
enhanced file is created and the pair `(enhanced_path, file)` is recorded in
`preprocessed_files` / `source_files`) or raises (see `enhance_wav`), in which
case the per-item `except` catches and the item is dropped.  The `finally`
removes the preprocessed wav on every path. -/
def prepareItem (env : BatchEnv) (fs : FS) (file : String) : FS × Option (String × String) :=
  match env.preprocess file with
  | none => (fs, none)
  | some wav_path =>
    let fs1 := fsWrite fs wav_path ""
    if env.enhancerOk wav_path then
      let enhanced := enhancedPathFor wav_path
      let fs2 := fsWrite fs1 enhanced ""
      (fsRemove fs2 wav_path, some (enhanced, file))
    else
      (fsRemove fs1 wav_path, none)

/-- `save_transcript` (audio2txt.py:165-172): derived path is
`original_path + ".txt"`; an existing file there is removed, then the content
is written. -/
def save_transcript (fs : FS) (original_path content : String) : FS :=
  let txt_path := original_path ++ ".txt"
  let fs1 := if fsExists fs txt_path then fsRemove fs txt_path else fs
  fsWrite fs1 txt_path content

/-- The result-saving loop of `process_batch` (audio2txt.py:206-219).
`sources` is the `source_files` dict (keyed by enhanced path).  For each
transcript: empty content is logged and `continue`s — NOTE that this `continue`
also skips the temp-file cleanup on lines 218-219; otherwise the transcript is
saved beside its source (count incremented) and the enhanced temp file is
removed. -/
def finishLoop (sources : List (String × String)) : Nat × FS → List (String × String) → Nat × FS
  | st, [] => st
  | (count, fs), (enhanced, content) :: rest =>
    if content.length = 0 then
      finishLoop sources (count, fs) rest
    else
      let orig? := (sources.find? (fun e => e.1 == enhanced)).map Prod.snd
      let next :=
        match orig? with
        | some orig => (count + 1, save_transcript fs orig content)
        | none => (count, fs)
      let fs3 := if fsExists next.2 enhanced then fsRemove next.2 enhanced else next.2
      finishLoop sources (next.1, fs3) rest

/-- `process_batch` (audio2txt.py:174-223) on the path where the batch-level
try block does not raise: prepare every file (each creating and later removing
its preprocessed wav, and on success an enhanced wav), transcribe the surviving
enhanced files via `transcript_wavs`, then save results and clean up in
`finishLoop`.  Returns the persisted count and the final filesystem. -/
def process_batch (env : BatchEnv) (fs0 : FS) (file_batch : List String) : Nat × FS :=
  let step := fun (st : FS × List (String × String)) (file : String) =>
    let r := prepareItem env st.1 file
    (r.1, match r.2 with | none => st.2 | some pr => st.2 ++ [pr])
  let fp := file_batch.foldl step (fs0, [])
  let wavs := fp.2.map Prod.fst
  let transcripts := transcript_wavs wavs (wavs.map env.asr)
  finishLoop fp.2 (0, fp.1) transcripts

/-- The extension whitelist of `is_audio_file` (audio2txt.py:69). -/
def valid_ext : List String := [".wav", ".mp3", ".flac", ".aac", ".ogg", ".m4a", ".opus"]

/-- Python `str.lower` restricted to its ASCII action (character-wise
`Char.toLower`), which is all the extension comparison exercises. -/
def lowerStr (s : String) : String := ⟨s.data.map Char.toLower⟩

/-- `is_audio_file` (audio2txt.py:61-70): try to decode the file header
(`decodeOk` is the outcome of that external pydub call); on any failure fall
back to the lowercased-extension whitelist. -/
def is_audio_file (decodeOk : Bool) (file_path : String) : Bool :=
  if decodeOk then true
  else decide (lowerStr (splitext file_path).2 ∈ valid_ext)

/-- `collect_audio_files` (audio2txt.py:150-163) with the directory walk
abstracted: `walked` is the flattened list of file paths the walk visits (paths
taken as already absolute), and a file is enrolled exactly when
`is_audio_file` accepts it. -/
def collect_audio_files (decodeOk : String → Bool) (walked : List String) : List String :=
  walked.filter (fun f => is_audio_file (decodeOk f) f)

/-- Python `str.endswith`. -/
def endswith (s suf : String) : Bool := suf.data.isSuffixOf s.data

/-- `TextSummarizer.is_text_file` (summary.py:93-96). -/
def is_text_file (file_path : String) : Bool := endswith file_path ".txt"

/-- `TextSummarizer.is_summary_file` (summary.py:98-101). -/
def is_summary_file (file_path : String) : Bool := endswith file_path ".txt.md"

/-- `TextSummarizer.collect_txt_files` (summary.py:103-135) with the two
thread pools abstracted to their joint effect on membership: phase 1 produces
the walked file list, phase 2 keeps exactly the paths accepted by
`is_summary_file` (note: `is_text_file` is not consulted), appending them under
a lock.  The claimed property is about which files are selected, not about the
(unspecified) order. -/
def collect_txt_files (walked : List String) : List String :=
  walked.filter is_summary_file

/-- `output_file = os.path.abspath(txt_file) + ".md"` (summary.py:150), with
`abspath` the identity on the already-absolute collected paths. -/
def summaryOutputPath (txt_file : String) : String := txt_file ++ ".md"

/-- One iteration of the `scan_and_summarize` loop body for a candidate
(summary.py:149-168), with `generate_summary` abstracted as `summaryOf`:
if the output file exists and overwrite is off, skip (written = false, nothing
touched); otherwise generate; an empty summary is skipped; else an existing
output file is removed and the summary written (written = true). -/
def summary_persist (overwrite : Bool) (summaryOf : String → String) (fs : FS)
    (txt_file : String) : Bool × FS :=
  let output_file := summaryOutputPath txt_file
  if fsExists fs output_file && !overwrite then
    (false, fs)
  else
    let summary := summaryOf txt_file
    if summary = "" then (false, fs)
    else
      let fs1 := if fsExists fs output_file then fsRemove fs output_file else fs
      (true, fsWrite fs1 output_file summary)

/-- Python `tokens[-k:]` for a non-negative `k`: the last `k` elements — except
that `k = 0` denotes the slice `tokens[0:]`, the whole list. -/
def pyLastSlice (tokens : List Nat) (k : Nat) : List Nat :=
  if k = 0 then tokens else tokens.drop (tokens.length - k)

/-- `TextSummarizer._truncate_text` (summary.py:51-58) at the token level (the
tokenizer encode/decode pair is the external boundary; `L` is
`self.max_ctx_length`).  When the token count exceeds `L` the code builds
`tokens[:L//2] + tokens[-L//3 * 2:]` — the unary minus binds first, so the
second slice is the last `2*ceil(L/3)` tokens — and then feeds
`keep_tokens[:L]` to the decoder. -/
def truncate_tokens (L : Nat) (tokens : List Nat) : List Nat :=
  if L < tokens.length then
    (tokens.take (L / 2) ++ pyLastSlice tokens (2 * ((L + 2) / 3))).take L
  else tokens

/-- Modelled from the spec: "retain the leading half and trailing
two-thirds-of-remaining-budget of the token sequence, dropping the middle" —
keep the first `L/2` tokens and the trailing two-thirds of the remaining
budget `L - L/2`. -/
def truncate_tokens_spec (L : Nat) (tokens : List Nat) : List Nat :=
  if L < tokens.length then
    tokens.take (L / 2) ++ pyLastSlice tokens (2 * (L - L / 2) / 3)
  else tokens

theorem transcript_wavs_map_fst (wav_files : List String)
    (rec_result : List (Option (List RawFrag)))
    (h : rec_result.length = wav_files.length) :
    (transcript_wavs wav_files rec_result).map Prod.fst = wav_files := by
  induction wav_files generalizing rec_result with
  | nil =>
    cases rec_result with
    | nil => rfl
    | cons r rs => simp at h
  | cons w ws ih =>
    cases rec_result with
    | nil => simp at h
    | cons r rs =>
      simp only [transcript_wavs, List.map_cons]
      rw [ih rs (by simpa using h)]

/-- C6: when the ASR batch call returns one result per submitted item (its
order-preservation contract) and no batch-level exception occurs, the list
built by `transcript_wavs` has one entry per input and entry `i` carries the
`i`-th submitted path — no reordering. -/
theorem transcript_wavs_order_preserving (wav_files : List String)
    (rec_result : List (Option (List RawFrag)))
    (h : rec_result.length = wav_files.length) :
    (transcript_wavs wav_files rec_result).length = wav_files.length ∧
    (transcript_wavs wav_files rec_result).map Prod.fst = wav_files := by
  have hm := transcript_wavs_map_fst wav_files rec_result h
  refine ⟨?_, hm⟩
  have := congrArg List.length hm
  simpa using this

/-- Witness for C6 at a concrete 2-item batch. -/
theorem transcript_wavs_order_preserving_witness :
    ([some [], none] : List (Option (List RawFrag))).length =
      (["a.wav", "b.wav"] : List String).length ∧
    ((transcript_wavs ["a.wav", "b.wav"] [some [], none]).length =
        (["a.wav", "b.wav"] : List String).length ∧
      (transcript_wavs ["a.wav", "b.wav"] [some [], none]).map Prod.fst =
        ["a.wav", "b.wav"]) :=
  ⟨rfl, transcript_wavs_order_preserving ["a.wav", "b.wav"] [some [], none] rfl⟩

/-- C3 (code bug): on enhancement-capability failure `enhance_wav` does not
fall back to the pre-enhancement artifact — the fallback branch itself raises
`TypeError` (the `os.copy_file_range` call at audio2txt.py:96 passes two `str`
paths and no `count` to a function requiring two file descriptors and a
count), so the error propagates out of the stage instead of the documented
`return input_path`.  Second conjunct: the success path returning the enhanced
temp path, for contrast. -/
theorem enhance_wav_fallback_raises :
    enhance_wav false "/tmp/preprocess_a.wav" = Except.error PyErr.typeError ∧
    enhance_wav true "/tmp/preprocess_a.wav" = Except.ok "/tmp/enhanced_preprocess_a.wav" :=
  ⟨rfl, rfl⟩

/-- Batch oracle for the C4 leak scenario: one source file whose preprocessing
and enhancement succeed, but whose transcription yields no surviving fragments,
hence empty content. -/
def envC4 : BatchEnv :=
  { preprocess := fun f => if f == "/data/a.mp3" then some "/tmp/preprocess_a.wav" else none
  , enhancerOk := fun _ => true
  , asr := fun _ => some [] }

/-- C4 (code bug): after a batch whose single item produced empty transcription
content, the enhanced scratch artifact still exists on disk — the
empty-content `continue` (audio2txt.py:210-212) skips the cleanup at
audio2txt.py:218-219 — refuting removal of both ephemeral artifacts on every
exit path (the preprocessed scratch file is indeed gone, third conjunct). -/
theorem process_batch_enhanced_artifact_leak :
    (process_batch envC4 [] ["/data/a.mp3"]).1 = 0 ∧
    fsExists (process_batch envC4 [] ["/data/a.mp3"]).2 "/tmp/enhanced_preprocess_a.wav" = true ∧
    fsExists (process_batch envC4 [] ["/data/a.mp3"]).2 "/tmp/preprocess_a.wav" = false :=
  ⟨rfl, by decide, by decide⟩

theorem fsExists_fsWrite_self (fs : FS) (p c : String) : fsExists (fsWrite fs p c) p = true := by
  simp [fsExists, fsWrite]

theorem fsRead_fsWrite_self (fs : FS) (p c : String) : fsRead (fsWrite fs p c) p = some c := by
  simp [fsRead, fsWrite]

/-- C5: with overwrite off, persisting onto an existing derived output returns
written = false and leaves the whole filesystem (hence the existing file's
bytes) untouched; persisting twice on the same source and content from a state
without the derived output returns written = true then written = false, and the
final content of the derived file is the first call's content. -/
theorem summary_persist_skip_idempotent (fs fsx : FS) (src content : String)
    (hc : content ≠ "") (hnx : fsExists fs (summaryOutputPath src) = false)
    (hx : fsExists fsx (summaryOutputPath src) = true) :
    summary_persist false (fun _ => content) fsx src = (false, fsx) ∧
    (summary_persist false (fun _ => content) fs src).1 = true ∧
    (summary_persist false (fun _ => content)
        (summary_persist false (fun _ => content) fs src).2 src).1 = false ∧
    fsRead (summary_persist false (fun _ => content)
        (summary_persist false (fun _ => content) fs src).2 src).2 (summaryOutputPath src)
      = some content := by
  have h1 : summary_persist false (fun _ => content) fs src =
      (true, fsWrite fs (summaryOutputPath src) content) := by
    simp [summary_persist, hnx, hc]
  have h2 : summary_persist false (fun _ => content)
      (fsWrite fs (summaryOutputPath src) content) src =
      (false, fsWrite fs (summaryOutputPath src) content) := by
    simp [summary_persist, fsExists_fsWrite_self]
  refine ⟨by simp [summary_persist, hx], ?_, ?_, ?_⟩
  · rw [h1]
  · rw [h1, h2]
  · rw [h1, h2]
    exact fsRead_fsWrite_self _ _ _

/-- Existing-derived-output state for the C5 witness. -/
def fsxC5 : FS := [("/d/x.txt.md.md", "old")]

/-- Witness for C5 at a concrete source, content and filesystem states. -/
theorem summary_persist_skip_idempotent_witness :
    (("S" : String) ≠ "" ∧ fsExists [] (summaryOutputPath "/d/x.txt.md") = false ∧
      fsExists fsxC5 (summaryOutputPath "/d/x.txt.md") = true) ∧
    (summary_persist false (fun _ => "S") fsxC5 "/d/x.txt.md" = (false, fsxC5) ∧
      (summary_persist false (fun _ => "S") [] "/d/x.txt.md").1 = true ∧
      (summary_persist false (fun _ => "S")
          (summary_persist false (fun _ => "S") [] "/d/x.txt.md").2 "/d/x.txt.md").1 = false ∧
      fsRead (summary_persist false (fun _ => "S")
          (summary_persist false (fun _ => "S") [] "/d/x.txt.md").2 "/d/x.txt.md").2
          (summaryOutputPath "/d/x.txt.md") = some "S") :=
  ⟨⟨by decide, by decide, by decide⟩,
    summary_persist_skip_idempotent [] fsxC5 "/d/x.txt.md" "S" (by decide) (by decide) (by decide)⟩

/-- C7: an empty-content transcript contributes nothing to persistence — the
`process_batch` saving loop on an empty-content item equals the loop without
that item (no output file written, count unchanged), and the summary pipeline's
per-candidate step with an empty generated summary returns written = false with
the filesystem untouched, for any overwrite setting. -/
theorem empty_content_not_persisted (sources : List (String × String)) (count : Nat) (fs : FS)
    (enhanced : String) (rest : List (String × String)) (ov : Bool) (fs2 : FS) (src : String) :
    finishLoop sources (count, fs) ((enhanced, "") :: rest) =
      finishLoop sources (count, fs) rest ∧
    summary_persist ov (fun _ => "") fs2 src = (false, fs2) := by
  constructor
  · rw [finishLoop]
    simp
  · rw [summary_persist]
    by_cases h : (fsExists fs2 (summaryOutputPath src) && !ov) = true
    · rw [if_pos h]
    · rw [if_neg h]
      simp

/-- Token sequence for the C8 counter-scenario (limit 6, 10 tokens). -/
def exTokens : List Nat := [0, 1, 2, 3, 4, 5, 6, 7, 8, 9]

/-- C8 (code bug): for limit L = 6 and tokens 0..9 the code produces
`[0,1,2,6,7,8]` — the final `keep_tokens[:L]` cut drops the trailing tokens of
the tail slice (token 9, the conclusion, is absent), so the retained tail is
not the trailing part of the sequence; the spec-modelled truncation (leading
half plus trailing two-thirds of the remaining budget) gives `[0,1,2,8,9]`.
The bounded-by-limit and unchanged-when-short parts of the claim do hold
(second and third conjuncts). -/
theorem truncate_text_drops_tail :
    truncate_tokens 6 exTokens = [0, 1, 2, 6, 7, 8] ∧
    (truncate_tokens 6 exTokens).length ≤ 6 ∧
    truncate_tokens 6 [0, 1, 2] = [0, 1, 2] ∧
    truncate_tokens_spec 6 exTokens = [0, 1, 2, 8, 9] ∧
    (truncate_tokens 6 exTokens).contains 9 = false :=
  ⟨by decide, by decide, by decide, by decide, by decide⟩

/-- C9: for a file whose content fails to decode as audio, `is_audio_file`
still returns true exactly when the path's lowercased `splitext` extension is
one of .wav/.mp3/.flac/.aac/.ogg/.m4a/.opus, and discovery enrolls a walked
file exactly when `is_audio_file` accepts it — so an undecodable file with a
whitelisted extension becomes a processing candidate. -/
theorem is_audio_file_fallback_whitelist (decodeOk : String → Bool) (walked : List String)
    (p : String) (hd : decodeOk p = false) :
    is_audio_file (decodeOk p) p =
      decide (lowerStr (splitext p).2 ∈
        [".wav", ".mp3", ".flac", ".aac", ".ogg", ".m4a", ".opus"]) ∧
    (p ∈ collect_audio_files decodeOk walked ↔
      p ∈ walked ∧ is_audio_file (decodeOk p) p = true) := by
  constructor
  · rw [hd]
    rfl
  · simp [collect_audio_files, List.mem_filter]

/-- Decode oracle that fails on every file (undecodable content). -/
def decodeNone : String → Bool := fun _ => false

/-- Witness for C9: an undecodable `.WAV` file is classified by the whitelist
and enrolled as a candidate. -/
theorem is_audio_file_fallback_whitelist_witness :
    decodeNone "/data/noise.WAV" = false ∧
    (is_audio_file (decodeNone "/data/noise.WAV") "/data/noise.WAV" =
        decide (lowerStr (splitext "/data/noise.WAV").2 ∈
          [".wav", ".mp3", ".flac", ".aac", ".ogg", ".m4a", ".opus"]) ∧
      ("/data/noise.WAV" ∈ collect_audio_files decodeNone ["/data/noise.WAV"] ↔
        "/data/noise.WAV" ∈ ["/data/noise.WAV"] ∧
          is_audio_file (decodeNone "/data/noise.WAV") "/data/noise.WAV" = true)) ∧
    "/data/noise.WAV" ∈ collect_audio_files decodeNone ["/data/noise.WAV"] :=
  ⟨rfl,
    is_audio_file_fallback_whitelist decodeNone ["/data/noise.WAV"] "/data/noise.WAV" rfl,
    by decide⟩

theorem endswith_append (s a b : String) (h : endswith s a = true) :
    endswith (s ++ b) (a ++ b) = true := by
  unfold endswith at h ⊢
  rw [List.isSuffixOf_iff_suffix] at h ⊢
  obtain ⟨t, ht⟩ := h
  exact ⟨t, by rw [String.data_append, String.data_append, ← ht, List.append_assoc]⟩

/-- C10: summary-candidate collection selects exactly the walked files whose
path ends in ".txt.md" (a file ending only in ".txt" is never selected;
`is_text_file` plays no role in the selection predicate), and each candidate's
summary output path is the candidate path with ".md" appended, hence a
".txt.md.md" file. -/
theorem collect_summary_files_spec (walked : List String) (p q : String)
    (hq : endswith q ".txt.md" = true) (hp : endswith p ".txt.md" = false) :
    (q ∈ collect_txt_files walked ↔ q ∈ walked) ∧
    p ∉ collect_txt_files walked ∧
    summaryOutputPath q = q ++ ".md" ∧
    endswith (summaryOutputPath q) ".txt.md.md" = true := by
  refine ⟨?_, ?_, rfl, ?_⟩
  · simp [collect_txt_files, List.mem_filter, is_summary_file, hq]
  · simp [collect_txt_files, List.mem_filter, is_summary_file, hp]
  · have h2 := endswith_append q ".txt.md" ".md" hq
    exact h2

/-- Witness for C10: a walked list holding one ".txt.md" file and one plain
".txt" file; only the former is collected, and its output path ends in
".txt.md.md". -/
theorem collect_summary_files_spec_witness :
    (endswith "/a/t.txt.md" ".txt.md" = true ∧ endswith "/a/u.txt" ".txt.md" = false) ∧
    (("/a/t.txt.md" ∈ collect_txt_files ["/a/t.txt.md", "/a/u.txt"] ↔
        "/a/t.txt.md" ∈ ["/a/t.txt.md", "/a/u.txt"]) ∧
      "/a/u.txt" ∉ collect_txt_files ["/a/t.txt.md", "/a/u.txt"] ∧
      summaryOutputPath "/a/t.txt.md" = "/a/t.txt.md" ++ ".md" ∧
      endswith (summaryOutputPath "/a/t.txt.md") ".txt.md.md" = true) :=
  ⟨⟨by decide, by decide⟩,
    collect_summary_files_spec ["/a/t.txt.md", "/a/u.txt"] "/a/u.txt" "/a/t.txt.md"
      (by decide) (by decide)⟩
